/-
Verification development for the ABB product-catalog scraping pipeline.

This file gives a shallow embedding, in Lean 4, of the extraction and
orchestration code of the repository (src/scrappers/abb_scrapper.py,
src/utils.py, src/wrappers/request.py, src/wrappers/selenium_connection.py)
and proves or refutes the frozen specification claims about it.

Modelling conventions:
* Python strings are Lean `String` / `List Char`; Python `None` is `Option.none`.
* Python `set` is `Finset String`; its unspecified iteration order, where the
  code's result depends on it, is made an explicit list parameter.
* Python floats produced by `float(...)` on decimal text are modelled as `Rat`
  (only the textual parsing logic matters to the claims, not IEEE rounding).
* Exceptions are `Except` / `Option`; a raised exception that the source does
  not catch is an `Except.error` that aborts the remaining statements.
* Character classes (`\w`, `\d`, `str.lower`) are modelled at ASCII precision,
  which covers every input the claims and the target site exercise.
-/

import Mathlib

namespace Scrap

/-! ## Catalog resolver (`ABBScrapping.get_products`) -/

/-- Constant `PRODUCT_URL` from abb_scrapper.py: the fixed product base path. -/
def PRODUCT_URL : String := "https://www.baldor.com/catalog/"

/--
Embedding of `ABBScrapping.get_products`.

* `catalog` stands for the set returned by
  `Request().get_xml_respone(CATALOG_URL, tg=PRODUCT_CODE_TAG)` (a Python set,
  so duplicates are already collapsed);
* `sample` stands for `random.sample(list(products), limit)` (a size-`limit`
  subset chosen by the random generator; kept abstract as a parameter);
* `unique = some u` is the `isinstance(unique, list)` branch (`set(unique)`);
  the `ValueError` branch for a non-list `unique` is unrepresentable in the
  typed embedding;
* `processed_ids = some p` triggers `set(products).difference(processed_ids)`.

The final statement builds `[PRODUCT_URL + prod for prod in products]`;
the iteration order of a Python set is unspecified, so the embedding fixes a
canonical (lexicographic) enumeration of the set — the claims about this
function are order-insensitive (set of ids, absence of duplicates).
-/
def get_products (catalog : Finset String)
    (sample : Nat → Finset String → Finset String)
    (limit : Option Nat) (unique : Option (List String))
    (processed_ids : Option (Finset String)) : List String :=
  let products : Finset String :=
    match unique with
    | none =>
      match limit with
      | none => catalog
      | some n => sample n catalog
    | some u => u.toFinset
  let products : Finset String :=
    match processed_ids with
    | none => products
    | some p => products \ p
  (products.sort (fun a b => a ≤ b)).map (fun prod => PRODUCT_URL ++ prod)

/-! ## Spec extraction (`ABBScrapping.get_specs`) -/

/-- Embedding of `label.replace(" ", "_").lower()` from `get_specs`: the pattern is the
single character `" "`, so the replacement is a per-character map, followed
by per-character lower-casing (ASCII). -/
def normalizeLabel (label : String) : String :=
  String.mk
    ((label.toList.map (fun c => if c = ' ' then '_' else c)).map
      Char.toLower)

/--
Fuel-driven scanner equivalent to Python `re.findall(r"\d+\.*\d*", value)`:
at each digit it greedily takes a digit run, then a run of literal dots,
then a second digit run, emits the match, and resumes after it; a non-digit
head is skipped.  The fuel is an upper bound on the number of characters
still to scan, so `fuel = length` is always enough.
-/
def findNumsAux : Nat → List Char → List String
  | 0, _ => []
  | _, [] => []
  | fuel + 1, c :: cs =>
    if c.isDigit then
      let d1 := cs.takeWhile Char.isDigit
      let r1 := cs.dropWhile Char.isDigit
      let dots := r1.takeWhile (fun x => x = '.')
      let r2 := r1.dropWhile (fun x => x = '.')
      let d2 := r2.takeWhile Char.isDigit
      let r3 := r2.dropWhile Char.isDigit
      String.mk (c :: (d1 ++ dots ++ d2)) :: findNumsAux fuel r3
    else
      findNumsAux fuel cs

/-- Embedding of `re.findall` with the numeric pattern on the characters of `value`. -/
def findNums (value : String) : List String :=
  findNumsAux value.length value.toList

/-- Embedding of the value normalization of `get_specs`: the slash-join of the numeric matches. -/
def normalizeValue (value : String) : String :=
  String.intercalate "/" (findNums value)

/--
Python dict assignment `d[k] = v`: an existing key keeps its position and is
updated in place, a new key is appended at the end.
-/
def dictInsert (d : List (String × String)) (k v : String) :
    List (String × String) :=
  if d.any (fun p => p.1 = k) then
    d.map (fun p => if p.1 = k then (k, v) else p)
  else
    d ++ [(k, v)]

/--
Embedding of the dictionary-building loop of `ABBScrapping.get_specs`
(lines 109-116): filter the empty strings out of the label and value
collections independently, zip them positionally, and insert each
normalized pair into the (initially empty) spec dict.
-/
def get_specs (labels values : List String) : List (String × String) :=
  ((labels.filter (fun a => a ≠ "")).zip
      (values.filter (fun a => a ≠ ""))).foldl
    (fun d lv => dictInsert d (normalizeLabel lv.1) (normalizeValue lv.2)) []

/-! ## CAD URL escaping (`ABBScrapping.download_cad`, lines 222-226) -/

/-- Python `\w` (ASCII): alphanumeric or underscore.  `\W` is its negation. -/
def isWordChar (c : Char) : Bool := c.isAlphanum || c = '_'

/--
Python `hex(n).replace("0x", "%").upper()` without the leading `%`:
the digits of `n` in base 16, uppercased.  Python's `hex` prints the minimal
number of digits (no zero padding), which `Nat.toDigits` matches.
-/
def pyHexUpper (n : Nat) : List Char := (Nat.toDigits 16 n).map Char.toUpper

/-- The replacement text `hex(ord(c)).replace("0x", "%").upper()`. -/
def escapeChar (c : Char) : List Char := '%' :: pyHexUpper c.toNat

/-- The function `expand f s` concatenates `f` over the characters of `s` (per-character
string rewriting, the shape shared by `re.sub` on a one-character pattern). -/
def expand (f : Char → List Char) : List Char → List Char
  | [] => []
  | a :: t => f a ++ expand f t

/-- Embedding of the re.sub call on the one-character pattern: replace every
occurrence of the single character `c` by its escape text. -/
def subChar (c : Char) (s : List Char) : List Char :=
  expand (fun a => if a = c then escapeChar c else [a]) s

/--
The escaping loop of `download_cad` (lines 223-226):
`non_words_char = set(re.findall(r"\W", url_string))`, then for each character
of that set, substitute all its occurrences in the current string.  The
iteration order of the Python set is unspecified and the result depends on it
(a substitution can introduce `%`, which may itself be pending substitution),
so the order is an explicit parameter: `order` is the sequence in which the
distinct non-word characters are processed.
-/
def escapeUrl (s : List Char) (order : List Char) : List Char :=
  order.foldl (fun acc c => subChar c acc) s

/-- One uppercase hex digit (`0`-`9`, `A`-`F`) for `n < 16`. -/
def hexDigitU (n : Nat) : Char :=
  if n < 10 then Char.ofNat (48 + n) else Char.ofNat (55 + n)

/--
Modelled from the claim's wording, for comparison with `escapeUrl`: replace
every character that is not alphanumeric or underscore with `%` followed by
the two-digit uppercase hexadecimal of its code point, uniformly and
independently across the string, leaving word characters unchanged.
-/
def specEscape (s : List Char) : List Char :=
  expand (fun a =>
    if isWordChar a then [a]
    else ['%', hexDigitU (a.toNat / 16), hexDigitU (a.toNat % 16)]) s

/-! ## Python `float(...)` on decimal text, and BOM quantity parsing -/

/-- Digit accumulation by left fold: the value of a digit run. -/
def digitsVal (ds : List Char) : Nat :=
  ds.foldl (fun acc c => 10 * acc + (c.toNat - 48)) 0

/--
Python `float(token)` on decimal text, as an exact rational:
optional surrounding whitespace, optional sign, an integer part and/or a
fractional part (at least one digit overall; `"5."` and `".5"` are accepted),
and an optional `e`/`E` exponent with its own optional sign and mandatory
digits.  Any other leftover text fails (`ValueError` in Python, `none` here).
`inf`/`nan` spellings and digit-group underscores are outside the fragment the
scraped pages can produce and are not modelled.
-/
def pyFloat (s : String) : Option Rat :=
  let cs := s.toList.dropWhile Char.isWhitespace
  let cs := (cs.reverse.dropWhile Char.isWhitespace).reverse
  let sgn : Int := match cs with
    | '-' :: _ => -1
    | _ => 1
  let cs : List Char := match cs with
    | '+' :: t => t
    | '-' :: t => t
    | t => t
  let ip := cs.takeWhile Char.isDigit
  let cs1 := cs.dropWhile Char.isDigit
  let fp : List Char := match cs1 with
    | '.' :: t => t.takeWhile Char.isDigit
    | _ => []
  let cs2 : List Char := match cs1 with
    | '.' :: t => t.dropWhile Char.isDigit
    | t => t
  if ip.isEmpty && fp.isEmpty then none
  else
    let expo : Option Int := match cs2 with
      | [] => some 0
      | 'e' :: t =>
        let es : Int := match t with
          | '-' :: _ => -1
          | _ => 1
        let t : List Char := match t with
          | '+' :: u => u
          | '-' :: u => u
          | u => u
        let ed := t.takeWhile Char.isDigit
        if ed.isEmpty || !(t.dropWhile Char.isDigit).isEmpty then none
        else some (es * (digitsVal ed : Int))
      | 'E' :: t =>
        let es : Int := match t with
          | '-' :: _ => -1
          | _ => 1
        let t : List Char := match t with
          | '+' :: u => u
          | '-' :: u => u
          | u => u
        let ed := t.takeWhile Char.isDigit
        if ed.isEmpty || !(t.dropWhile Char.isDigit).isEmpty then none
        else some (es * (digitsVal ed : Int))
      | _ => none
    match expo with
    | none => none
    | some e =>
      let n : Int := sgn * (digitsVal (ip ++ fp) : Int)
      let shift : Int := e - (fp.length : Int)
      if 0 ≤ shift then some ((n * (10 : Int) ^ shift.toNat : Int) : Rat)
      else some (mkRat n ((10 : Nat) ^ (-shift).toNat))

/--
Python `cell.split(" ")[0]`: the prefix of the cell before the first space
character (the whole cell when it has no space; empty when it starts with
one).  This is what
`df_table["quantity"].str.split(" ", expand=True)[0]` keeps of each cell.
-/
def splitFirst (cell : String) : String :=
  String.mk (cell.toList.takeWhile (fun c => c ≠ ' '))

/--
The per-cell quantity re-derivation of `get_bom` (lines 148-149):
first space-delimited token, then `astype(float)`; `none` is the
`ValueError` that `astype(float)` raises on an unparseable token.
-/
def bomQuantity (cell : String) : Option Rat := pyFloat (splitFirst cell)

/--
Pandas `astype(float)` over the whole quantity column: every cell must parse,
one failure fails the column (and, uncaught, the product's BOM stage).
-/
def quantityColumn : List String → Option (List Rat)
  | [] => some []
  | c :: t =>
    match bomQuantity c, quantityColumn t with
    | some q, some qs => some (q :: qs)
    | _, _ => none

/-- The first whitespace-delimited token of a cell (empty if none). -/
def firstWsToken (cell : String) : String :=
  String.mk
    ((cell.toList.dropWhile Char.isWhitespace).takeWhile
      (fun c => !c.isWhitespace))

/--
Modelled from the claim's wording, for comparison with `bomQuantity`: the
first whitespace-delimited token of the cell parsed as a floating-point
number, `none` (hard failure) when it does not parse.
-/
def specQuantity (cell : String) : Option Rat := pyFloat (firstWsToken cell)

/--
Modelled from the claim's wording, for comparison with `findNums`: scan for
maximal integer-or-decimal substrings — a digit run optionally followed by a
single dot and a further nonempty digit run.  Fuel as in `findNumsAux`.
-/
def specNumsAux : Nat → List Char → List String
  | 0, _ => []
  | _, [] => []
  | fuel + 1, c :: cs =>
    if c.isDigit then
      let d1 := cs.takeWhile Char.isDigit
      let r1 := cs.dropWhile Char.isDigit
      match r1 with
      | '.' :: rest =>
        if rest.head?.any Char.isDigit then
          let d2 := rest.takeWhile Char.isDigit
          let r2 := rest.dropWhile Char.isDigit
          String.mk (c :: d1 ++ '.' :: d2) :: specNumsAux fuel r2
        else
          String.mk (c :: d1) :: specNumsAux fuel r1
      | _ => String.mk (c :: d1) :: specNumsAux fuel r1
    else
      specNumsAux fuel cs

/-- The claim-side value normalization: integer/decimal substrings joined
with `/`. -/
def specNormalizeValue (value : String) : String :=
  String.intercalate "/" (specNumsAux value.length value.toList)

/-! ## Orchestrator model (`ABBScrapping.run_scrapping` and collaborators)

The browser collaborator is modelled by a `Page` value describing what the
rendered product page contains; element lookups read its fields.  Selenium's
`find_element` returns `none` for a missing single element (the wrapper turns
`NoSuchElementException` into `None`), while `find_elements` returns a
possibly-empty list and never raises — so the spec-tab label/value collections
are plain lists and the `is None` guard of `get_specs` is dead code.
-/

/-- One CAD descriptor recovered from the `ng-init` pseudo-literal. -/
structure CadInfo where
  name : String
  value : String
  url : String
deriving DecidableEq, Repr

/-- Contents of the parts-tab pane, once found. -/
inductive BomPane where
  /-- The pane markup holds no `<table>`: `pd.read_html` raises
  `ValueError("No tables found")`, which `get_bom` does not catch. -/
  | noTable : BomPane
  /-- A table, represented by its `quantity` column cells (the only column
  the claims constrain; the remaining columns pass through untouched). -/
  | table (quantityCells : List String) : BomPane
deriving DecidableEq, Repr

/-- What the rendered product page offers to the extractors. -/
structure Page where
  /-- Text of `div.page-title`, absent when the element is missing. -/
  pageTitle : Option String
  /-- Text of `div.product-description`. -/
  productDescription : Option String
  /-- Whether `//li[@data-tab='specs']` exists (`go_to_tab` raises
  `ValueError` otherwise, which `get_specs` catches and returns). -/
  hasSpecsTab : Bool
  /-- Texts of the `span.label` elements (possibly empty list). -/
  specLabels : List String
  /-- Texts of the `span.value` elements (possibly empty list). -/
  specValues : List String
  /-- Whether `//li[@data-tab='parts']` exists. -/
  hasPartsTab : Bool
  /-- The parts pane element, when present, with its table contents;
  `none` means `find_element` returned `None` and
  `tables.get_attribute(...)` raises `AttributeError`. -/
  partsPane : Option BomPane
  /-- Whether `//li[@data-tab='drawings']` exists. -/
  hasDrawingsTab : Bool
  /-- Attribute `src` of the product-image element, absent when missing. -/
  productImage : Option String
  /-- Attribute `href` of the infoPacket anchor, absent when missing. -/
  infoPacket : Option String
  /-- The decoded CAD descriptor list of the `cadfiles` section, absent when
  the section element is missing.  (The double `ast.literal_eval` decoding is
  data-dependent and not itself under claim; the page model carries its
  result.) -/
  cadSection : Option (List CadInfo)
deriving DecidableEq, Repr

/-- The `JsonSchema` dataclass of base_scrapping.py (every field defaults
to `None`). -/
structure JsonSchema where
  product_id : Option String := none
  name : Option String := none
  description : Option String := none
  specs : Option (List (String × String)) := none
  bom : Option (List Rat) := none
  assets : Option (List (String × Option String)) := none
deriving DecidableEq, Repr

/-- Uncaught Python exceptions a pipeline stage can raise in this model. -/
inductive StageError where
  /-- Exception `AttributeError`: `get_bom` called `get_attribute` on `None`. -/
  | paneMissing : StageError
  /-- Exception `ValueError` raised by `pd.read_html` when no table is found. -/
  | noTablesFound : StageError
  /-- Exception `ValueError` from `astype(float)` on an unparseable quantity cell. -/
  | badQuantity : StageError
  /-- Exception `TypeError`: `download_assets` built `Path / None` because
  `product_id` is `None`. -/
  | typeError : StageError
deriving DecidableEq, Repr

/-- Embedding of `ABBScrapping.get_head`: product id and description from fixed
selectors (each `none` when its element is missing — no exception). -/
def get_head (pg : Page) (rec : JsonSchema) : JsonSchema :=
  { rec with
    product_id := pg.pageTitle
    description := pg.productDescription }

/-- Embedding of `ABBScrapping.get_specs` at stage level: a missing specs tab returns
early leaving `specs` untouched; otherwise the dict (possibly empty) built by
`get_specs` is assigned. -/
def get_specs_stage (pg : Page) (rec : JsonSchema) : JsonSchema :=
  if pg.hasSpecsTab then
    { rec with specs := some (get_specs pg.specLabels pg.specValues) }
  else rec

/-- Embedding of `ABBScrapping.get_bom`: a missing parts tab returns early; a missing
pane or tableless pane raises; an empty table returns early with a warning;
otherwise the quantity column is re-parsed, raising on any bad cell. -/
def get_bom (pg : Page) (rec : JsonSchema) : Except StageError JsonSchema :=
  if pg.hasPartsTab then
    match pg.partsPane with
    | none => .error .paneMissing
    | some .noTable => .error .noTablesFound
    | some (.table cells) =>
      if cells.isEmpty then .ok rec
      else
        match quantityColumn cells with
        | none => .error .badQuantity
        | some qs => .ok { rec with bom := some qs }
  else .ok rec

/--
Python `s.replace(pattern, r)` at the character-list level: non-overlapping
left-to-right replacement of every occurrence of `pattern` by `r` (the
semantics of Python `str.replace` for a nonempty pattern).  The fuel is an
upper bound on the characters still to scan; every step consumes at least
one character, so `fuel = s.length` is enough.
-/
def replaceAllAux (p r : List Char) : Nat → List Char → List Char
  | 0, s => s
  | _, [] => []
  | fuel + 1, c :: t =>
    if p.isPrefixOf (c :: t) then
      r ++ replaceAllAux p r fuel ((c :: t).drop p.length)
    else
      c :: replaceAllAux p r fuel t

/-- Python `s.replace(pattern, r)` for a nonempty `pattern`. -/
def pyReplace (s pattern r : String) : String :=
  String.mk (replaceAllAux pattern.toList r.toList s.toList.length s.toList)

/-- Python `str(x)` as used by the file-name f-string: `None` prints as `None`. -/
def pyStr : Option String → String
  | none => "None"
  | some s => s

/-- First-occurrence deduplication order of the distinct non-word characters
of a string — the concrete order this model feeds to `escapeUrl` (the Python
set order being unspecified, see `escapeUrl`). -/
def nonWordOrder (s : String) : List Char :=
  (s.toList.filter (fun c => !isWordChar c)).dedup

/-- The escaped CAD URL of one descriptor, at the model's canonical order. -/
def cadEscapedUrl (info : CadInfo) : String :=
  String.mk (escapeUrl info.url.toList (nonWordOrder info.url))

/--
Embedding of `ABBScrapping.download_assets` together with `download_cad` and
`download_files`: a missing drawings tab returns early (`assets` stays
untouched, nothing is downloaded); with the tab present, `Path / prod_id`
raises `TypeError` when `product_id` is `None`; otherwise the image, the
manual and each CAD file are fetched (each URL recorded in the returned
download list) and `assets` is set to the metadata mapping, whose `cad`
entry is flattened here into `"cad:" ++ name` keys.
-/
def download_assets (defaultUrlDownload : String) (pg : Page)
    (rec : JsonSchema) : Except StageError (JsonSchema × List String) :=
  if pg.hasDrawingsTab then
    match rec.product_id with
    | none => .error .typeError
    | some pid =>
      let outPath := "output/assets/" ++ pid
      let img : Option String × List String :=
        match pg.productImage with
        | none => (none, [])
        | some src =>
          (some (pyReplace (outPath ++ "/img.jpg") "output/" ""), [src])
      let man : Option String × List String :=
        match pg.infoPacket with
        | none => (none, [])
        | some href =>
          (some (pyReplace (outPath ++ "/manual.pdf") "output/" ""), [href])
      let cad : List (String × Option String) × List String :=
        match pg.cadSection with
        | none => ([], [])
        | some [] => ([], [])
        | some cads =>
          (cads.map (fun info =>
            ("cad:" ++ info.name,
              some (pyReplace (outPath ++ "/" ++ info.value) "output/" ""))),
           cads.map (fun info =>
            defaultUrlDownload ++ info.value ++ "&url=" ++ cadEscapedUrl info))
      let meta : List (String × Option String) :=
        ("image", img.1) :: ("manual", man.1) :: cad.1
      .ok ({ rec with assets := some meta }, img.2 ++ man.2 ++ cad.2)
  else .ok (rec, [])

/-- Outcome of one `json_write` attempt, as decided by the environment. -/
inductive WriteOutcome where
  /-- The `json.dump` call succeeded. -/
  | success : WriteOutcome
  /-- Exception `TypeError`: the record is not JSON-serializable. -/
  | typeError : WriteOutcome
  /-- Exception `IOError` while writing the file. -/
  | ioError : WriteOutcome
  /-- any other exception. -/
  | otherError : WriteOutcome
deriving DecidableEq, Repr

/-- Embedding of `utils.json_write`: every failure class is caught inside, logged, and
turned into the boolean `False`; only success yields `True`.  The function
is total — no exception escapes it. -/
def json_write : WriteOutcome → Bool
  | .success => true
  | .typeError => false
  | .ioError => false
  | .otherError => false

/-- Observable effects of one `run_scrapping(product_url)` call. -/
structure RunResult where
  /-- Whether `connection.load_page` was called. -/
  pageLoaded : Bool
  /-- Whether `connection.close()` was called. -/
  pageClosed : Bool
  /-- URLs passed to `request.download`, in order. -/
  downloads : List String
  /-- The metadata file written: name and record content. -/
  written : Option (String × JsonSchema)
  /-- The boolean returned by `json_write`, when it was reached. -/
  writeOk : Option Bool
  /-- The uncaught exception that aborted the call, if any. -/
  error : Option StageError
deriving DecidableEq, Repr

/--
Embedding of `ABBScrapping.run_scrapping`: existence probe, then the pipeline
`load_page; get_head; get_specs; get_bom; download_assets; close;` and the
persistence of `product_info.__dict__` to `f"{prod_id}.json"`.  There is no
`try`/`finally`: an exception raised by a stage aborts the remaining
statements (in particular `connection.close()` and the write) and escapes.
`probeOk` is the truthiness of the value `request.get_response(product_url)`
returns — the pipeline on `true`, the early return on `false`.  The probe
call can also itself raise instead of returning (see `get_response` below);
that path never reaches this pipeline and is modelled by `run_product`.
-/
def run_scrapping (defaultUrlDownload : String) (probeOk : Bool) (pg : Page)
    (w : WriteOutcome) : RunResult :=
  if probeOk then
    let r1 := get_head pg {}
    let r2 := get_specs_stage pg r1
    match get_bom pg r2 with
    | .error e =>
      { pageLoaded := true, pageClosed := false, downloads := [],
        written := none, writeOk := none, error := some e }
    | .ok r3 =>
      match download_assets defaultUrlDownload pg r3 with
      | .error e =>
        { pageLoaded := true, pageClosed := false, downloads := [],
          written := none, writeOk := none, error := some e }
      | .ok (r4, dls) =>
        { pageLoaded := true, pageClosed := true, downloads := dls,
          written := some (pyStr r4.product_id ++ ".json", r4),
          writeOk := some (json_write w), error := none }
  else
    { pageLoaded := false, pageClosed := false, downloads := [],
      written := none, writeOk := none, error := none }

/-- One product's inputs: probe outcome, page contents, write outcome. -/
structure ProductInput where
  probeOk : Bool
  page : Page
  write : WriteOutcome
deriving DecidableEq, Repr

/--
The driver loop of main.py: `run_scrapping` per product URL, with no
per-product `try` — an exception escaping `run_scrapping` aborts the loop
(it propagates to `@logger.catch` on `main`), while a probe or persistence
failure lets the loop continue.
-/
def runAll (defaultUrlDownload : String) : List ProductInput → List RunResult
  | [] => []
  | p :: rest =>
    let r := run_scrapping defaultUrlDownload p.probeOk p.page p.write
    if r.error.isSome then [r]
    else r :: runAll defaultUrlDownload rest

/-! ## The existence probe itself (`Request.get_response`)

The probe call can do more than return a truthy or falsy value: its
catch-all handler is broken, so `get_response` can also raise.  The
following model keys `get_response` by what the underlying HTTP GET does
and reproduces the function's own control flow exactly.
-/

/-- What the HTTP GET inside `Request.get_response` does. -/
inductive ProbeOutcome where
  /-- The request succeeded and `raise_for_status` passed. -/
  | success : ProbeOutcome
  /-- The request raised `requests.exceptions.Timeout`. -/
  | timeout : ProbeOutcome
  /-- The request raised `requests.ConnectionError`. -/
  | connectionError : ProbeOutcome
  /-- The request raised `requests.exceptions.HTTPError`
  (`raise_for_status` on a bad status code). -/
  | httpError : ProbeOutcome
  /-- The request raised any other exception — e.g.
  `requests.exceptions.TooManyRedirects` on a redirect loop. -/
  | otherException : ProbeOutcome
deriving DecidableEq, Repr

/-- An exception `Request.get_response` itself raises. -/
inductive ProbeExc where
  /-- The catch-all clause `except Exception as error: pass` binds the
  exception to `error`, and Python deletes the `as` target at the end of
  the except clause — even though `error` was assigned `""` before the
  `try` — so the following `logger.error(error)` raises
  `UnboundLocalError`, which nothing in `get_response` catches. -/
  | unboundLocalError : ProbeExc
deriving DecidableEq, Repr

/--
Embedding of `Request.get_response`: the response (truthy, here `true`) on
success; for the three classified failures the error message is assigned,
logged, and `False` is returned; on any other exception the catch-all
clause leaves `error` unbound and the function raises `UnboundLocalError`
instead of returning.
-/
def get_response : ProbeOutcome → Except ProbeExc Bool
  | .success => .ok true
  | .timeout => .ok false
  | .connectionError => .ok false
  | .httpError => .ok false
  | .otherException => .error .unboundLocalError

/-- Whether the `logger.error(error)` call of `get_response` executes:
not on success (the function returned earlier), and not on the catch-all
path (evaluating the unbound `error` raises first). -/
def probe_logged : ProbeOutcome → Bool
  | .success => false
  | .timeout => true
  | .connectionError => true
  | .httpError => true
  | .otherException => false

/-- One full `run_scrapping(product_url)` call including the probe:
`if not self.request.get_response(product_url)` either tests the returned
truthiness and proceeds as `run_scrapping` models, or — when the probe
itself raises — propagates that exception out of `run_scrapping`
immediately (nothing after the probe runs). -/
def run_product (defaultUrlDownload : String) (probe : ProbeOutcome)
    (pg : Page) (w : WriteOutcome) : Except ProbeExc RunResult :=
  match get_response probe with
  | .error e => .error e
  | .ok b => .ok (run_scrapping defaultUrlDownload b pg w)

/-- One product's inputs for the probe-aware driver loop. -/
structure FullInput where
  probe : ProbeOutcome
  page : Page
  write : WriteOutcome
deriving DecidableEq, Repr

/-- The driver loop of main.py over the probe-aware model: an exception
escaping `run_scrapping` — a stage exception or the probe's
`UnboundLocalError` — aborts the loop over the remaining products
(it propagates to `@logger.catch` on `main`). -/
def runAllFull (defaultUrlDownload : String) :
    List FullInput → List (Except ProbeExc RunResult)
  | [] => []
  | p :: rest =>
    match run_product defaultUrlDownload p.probe p.page p.write with
    | .error e => [.error e]
    | .ok r =>
      if r.error.isSome then [.ok r]
      else .ok r :: runAllFull defaultUrlDownload rest

/-! ## Helper lemmas -/

theorem dictInsert_append {d : List (String × String)} {k : String}
    (h : ∀ p ∈ d, p.1 ≠ k) (v : String) :
    dictInsert d k v = d ++ [(k, v)] := by
  have hany : d.any (fun p => p.1 = k) = false := by
    simp only [List.any_eq_false, decide_eq_true_eq]
    exact h
  simp [dictInsert, hany]

theorem foldl_dictInsert_nodup :
    ∀ (pairs d : List (String × String)),
      (pairs.map Prod.fst).Nodup →
      (∀ k ∈ pairs.map Prod.fst, ∀ p ∈ d, p.1 ≠ k) →
      pairs.foldl (fun d kv => dictInsert d kv.1 kv.2) d = d ++ pairs := by
  intro pairs
  induction pairs with
  | nil => intro d _ _; simp
  | cons kv rest ih =>
    intro d hnd hdisj
    have hhead : ∀ p ∈ d, p.1 ≠ kv.1 := fun p hp =>
      hdisj kv.1 (by simp) p hp
    have hnd' : (rest.map Prod.fst).Nodup := by
      simpa using (List.nodup_cons.mp (by simpa using hnd)).2
    have hnotin : kv.1 ∉ rest.map Prod.fst :=
      (List.nodup_cons.mp (by simpa using hnd)).1
    have hdisj' : ∀ k ∈ rest.map Prod.fst, ∀ p ∈ d ++ [kv], p.1 ≠ k := by
      intro k hk p hp
      rcases List.mem_append.mp hp with h | h
      · exact hdisj k (by simp [hk]) p h
      · have : p = kv := by simpa using h
        subst this
        intro hcontra
        exact hnotin (hcontra ▸ hk)
    calc ((kv :: rest).foldl (fun d kv => dictInsert d kv.1 kv.2) d)
        = rest.foldl (fun d kv => dictInsert d kv.1 kv.2)
            (dictInsert d kv.1 kv.2) := by simp
      _ = rest.foldl (fun d kv => dictInsert d kv.1 kv.2) (d ++ [kv]) := by
            rw [dictInsert_append hhead]
      _ = (d ++ [kv]) ++ rest := ih (d ++ [kv]) hnd' hdisj'
      _ = d ++ (kv :: rest) := by simp

theorem map_fst_zip_sublist {α β : Type} :
    ∀ (l1 : List α) (l2 : List β),
      ((l1.zip l2).map Prod.fst).Sublist l1 := by
  intro l1
  induction l1 with
  | nil => intro l2; simp
  | cons a t ih =>
    intro l2
    cases l2 with
    | nil => simp
    | cons b t2 => simpa using (ih t2).cons₂ a

/-! ## C1 -/

/--
C1: for every candidate-id set `C` collected from the catalog feed and every
processed-id set `P`, `get_products` with no explicit id list and no limit
returns a list of URLs whose id parts are exactly `C \ P`, with no duplicate
ids, each URL being the fixed product base path concatenated with the id.
-/
theorem C1_resolver_set_difference
    (C P : Finset String) (sample : Nat → Finset String → Finset String) :
    ∃ ids : List String,
      get_products C sample none none (some P)
          = ids.map (fun i => PRODUCT_URL ++ i)
        ∧ ids.Nodup ∧ ids.toFinset = C \ P := by
  refine ⟨(C \ P).sort (fun a b => a ≤ b), rfl, ?_, ?_⟩
  · exact Finset.sort_nodup _ _
  · exact Finset.sort_toFinset _ _

/-! ## C2 -/

/--
C2: `get_specs` removes empty strings from the label and value collections
independently, then pairs the surviving collections positionally (the i-th
surviving label with the i-th surviving value — the zip truncating silently at
the shorter when their lengths differ), each label sent to its
lower-cased, space-to-underscore key.  Stated for collections whose surviving
normalized labels are pairwise distinct, so that the Python dict built by the
loop is exactly the list of positional pairs.
-/
theorem C2_specs_filter_then_zip (labels values : List String)
    (h : ((labels.filter (fun a => a ≠ "")).map normalizeLabel).Nodup) :
    get_specs labels values =
      ((labels.filter (fun a => a ≠ "")).zip
          (values.filter (fun a => a ≠ ""))).map
        (fun lv => (normalizeLabel lv.1, normalizeValue lv.2)) := by
  unfold get_specs
  set pairs := ((labels.filter (fun a => a ≠ "")).zip
    (values.filter (fun a => a ≠ ""))).map
    (fun lv => (normalizeLabel lv.1, normalizeValue lv.2)) with hpairs
  have hfold :
      ((labels.filter (fun a => a ≠ "")).zip
          (values.filter (fun a => a ≠ ""))).foldl
        (fun d lv => dictInsert d (normalizeLabel lv.1) (normalizeValue lv.2))
        [] = pairs.foldl (fun d kv => dictInsert d kv.1 kv.2) [] := by
    rw [hpairs, List.foldl_map]
  rw [hfold]
  have hkeys : pairs.map Prod.fst =
      ((labels.filter (fun a => a ≠ "")).zip
        (values.filter (fun a => a ≠ ""))).map
        (fun lv => normalizeLabel lv.1) := by
    simp [hpairs]
  have hsub : (pairs.map Prod.fst).Sublist
      ((labels.filter (fun a => a ≠ "")).map normalizeLabel) := by
    rw [hkeys]
    have := map_fst_zip_sublist (labels.filter (fun a => a ≠ ""))
      (values.filter (fun a => a ≠ ""))
    simpa using this.map normalizeLabel
  have hnd : (pairs.map Prod.fst).Nodup := hsub.nodup h
  rw [foldl_dictInsert_nodup pairs [] hnd (by simp)]
  simp

/--
Witness for C2 at concrete collections: an empty label is dropped before the
positional pairing, the value collection is longer and gets truncated, and
the labels are normalized to lower-case/underscore keys.
-/
theorem C2_specs_filter_then_zip_witness :
    get_specs ["Rated Power", "", "Foo"] ["4.5 in (114 mm)", "N/A", "x"]
      = [("rated_power", "4.5/114"), ("foo", "")] := by
  rw [C2_specs_filter_then_zip ["Rated Power", "", "Foo"]
    ["4.5 in (114 mm)", "N/A", "x"] (by decide)]
  decide

/-! ## C5 -/

theorem findNumsAux_of_no_digit :
    ∀ (fuel : Nat) (l : List Char),
      (∀ c ∈ l, c.isDigit = false) → findNumsAux fuel l = [] := by
  intro fuel
  induction fuel with
  | zero => intro l _; cases l <;> rfl
  | succ n ih =>
    intro l h
    cases l with
    | nil => rfl
    | cons c cs =>
      have hc : c.isDigit = false := h c (by simp)
      simp only [findNumsAux, hc]
      exact ih cs (fun x hx => h x (by simp [hx]))

/--
Counterexample to C5 as stated: the extraction pattern `\d+\.*\d*` accepts
any number of dots between the two digit runs, so on `"4..5"` the code emits
the single token `"4..5"` — not a join of integer-or-decimal substrings,
which would give `"4/5"`.
-/
theorem C5_counterexample :
    normalizeValue "4..5" = "4..5"
      ∧ specNormalizeValue "4..5" = "4/5"
      ∧ normalizeValue "4..5" ≠ specNormalizeValue "4..5" := by
  decide

/--
C5 as amended: value normalization joins with `/` the maximal substrings
matched by `\d+\.*\d*` (a digit run, then any number of dots, then an
optional digit run — not always an integer or decimal numeral);
`"4.5 in (114 mm)"` normalizes to `"4.5/114"`, and a value with no digit at
all (such as `"N/A"`) normalizes to the empty string, never to null (the
result type is a plain string).
-/
theorem C5_value_normalization_amended :
    normalizeValue "4.5 in (114 mm)" = "4.5/114"
      ∧ normalizeValue "N/A" = ""
      ∧ ∀ value : String,
          (∀ c ∈ value.toList, c.isDigit = false) → normalizeValue value = "" := by
  refine ⟨by decide, by decide, ?_⟩
  intro value h
  unfold normalizeValue findNums
  rw [findNumsAux_of_no_digit _ _ h]
  rfl

/-- Witness for the amended C5 at a concrete digitless value. -/
theorem C5_value_normalization_amended_witness :
    normalizeValue "no digits at all" = "" :=
  C5_value_normalization_amended.2.2 "no digits at all" (by decide)

/-! ## C4 -/

theorem takeWhile_congr_mem {α : Type} {p q : α → Bool} :
    ∀ (l : List α), (∀ c ∈ l, p c = q c) →
      l.takeWhile p = l.takeWhile q := by
  intro l
  induction l with
  | nil => intro _; rfl
  | cons a t ih =>
    intro h
    have ha : p a = q a := h a (by simp)
    by_cases hq : q a = true
    · rw [List.takeWhile_cons_of_pos (by rw [ha]; exact hq),
        List.takeWhile_cons_of_pos hq, ih (fun c hc => h c (by simp [hc]))]
    · rw [List.takeWhile_cons_of_neg (by rw [ha]; exact hq),
        List.takeWhile_cons_of_neg hq]

theorem quantityColumn_eq_none :
    ∀ (cells : List String) (c : String), c ∈ cells →
      bomQuantity c = none → quantityColumn cells = none := by
  intro cells
  induction cells with
  | nil => intro c hc; simp at hc
  | cons a t ih =>
    intro c hc hnone
    rcases List.mem_cons.mp hc with rfl | hmem
    · simp only [quantityColumn, hnone]
    · simp only [quantityColumn, ih c hmem hnone]
      cases bomQuantity a <;> rfl

theorem space_token_eq {l : List Char}
    (h1 : ∀ c ∈ l, c.isWhitespace = true → c = ' ')
    (h2 : l.head? ≠ some ' ') :
    l.takeWhile (fun c => c ≠ ' ')
      = (l.dropWhile Char.isWhitespace).takeWhile (fun c => !c.isWhitespace) := by
  have hdrop : l.dropWhile Char.isWhitespace = l := by
    cases l with
    | nil => rfl
    | cons c t =>
      have hc : ¬c.isWhitespace = true := by
        intro hw
        have hsp : c = ' ' := h1 c (List.mem_cons_self c t) hw
        exact h2 (by rw [hsp]; rfl)
      simp [List.dropWhile_cons, hc]
  rw [hdrop]
  apply takeWhile_congr_mem
  intro c hc
  by_cases hsp : c = ' '
  · subst hsp; decide
  · have hw : c.isWhitespace = false := by
      cases hw : c.isWhitespace with
      | true => exact absurd (h1 c hc hw) hsp
      | false => rfl
    simp [hw, hsp]

/--
Counterexample to C4 as stated: the code splits the quantity cell on the
space character only (`str.split(" ")`), not on general whitespace.  On the
cell `"12<TAB>EA"` the first space-delimited token is the whole cell, which
`float` rejects — a hard failure — while the first whitespace-delimited
token is `"12"` and the claim demands the value `12.0`.
-/
theorem C4_counterexample :
    bomQuantity "12\tEA" = none
      ∧ specQuantity "12\tEA" = some 12
      ∧ bomQuantity "12\tEA" ≠ specQuantity "12\tEA" := by
  decide

/--
C4 as amended: each row's quantity is the first token of the cell split on
the space character (not general whitespace), parsed as a floating-point
number; on cells whose only whitespace is the space character and which do
not start with one, this coincides with the first whitespace-delimited
token.  A cell whose token does not parse makes the whole `astype(float)`
column conversion — and hence the BOM stage of that product — raise a hard
failure rather than dropping or nulling the row.
-/
theorem C4_bom_quantity_amended :
    (∀ cell : String,
        (∀ c ∈ cell.toList, c.isWhitespace = true → c = ' ') →
        cell.toList.head? ≠ some ' ' →
        bomQuantity cell = specQuantity cell)
      ∧ (∀ (pg : Page) (rec : JsonSchema) (cells : List String) (c : String),
          pg.hasPartsTab = true → pg.partsPane = some (.table cells) →
          cells.isEmpty = false → c ∈ cells → bomQuantity c = none →
          get_bom pg rec = .error .badQuantity) := by
  constructor
  · intro cell h1 h2
    unfold bomQuantity specQuantity splitFirst firstWsToken
    congr 2
    exact space_token_eq h1 h2
  · intro pg rec cells c hparts hpane hne hc hnone
    simp only [get_bom, hparts, hpane, if_pos rfl]
    rw [quantityColumn_eq_none cells c hc hnone]
    simp [hne]

/--
Witness for the amended C4: on `"12 EA"` the space-split and
whitespace-split tokens coincide and parse to `12.0`; a page whose BOM
table has the unparseable quantity cell `"EA"` makes `get_bom` raise.
-/
theorem C4_bom_quantity_amended_witness :
    bomQuantity "12 EA" = specQuantity "12 EA"
      ∧ bomQuantity "12 EA" = some 12
      ∧ get_bom
          { pageTitle := some "B0", productDescription := none,
            hasSpecsTab := false, specLabels := [], specValues := [],
            hasPartsTab := true, partsPane := some (.table ["EA"]),
            hasDrawingsTab := false, productImage := none,
            infoPacket := none, cadSection := none } {}
          = .error .badQuantity := by
  refine ⟨C4_bom_quantity_amended.1 "12 EA" (by decide) (by decide),
    by decide, ?_⟩
  exact C4_bom_quantity_amended.2 _ {} ["EA"] "EA" rfl rfl (by decide)
    (by simp) (by decide)

/-! ## C3 -/

theorem expand_append (f : Char → List Char) :
    ∀ (l1 l2 : List Char), expand f (l1 ++ l2) = expand f l1 ++ expand f l2 := by
  intro l1 l2
  induction l1 with
  | nil => rfl
  | cons a t ih => simp [expand, ih]

theorem expand_expand (f g : Char → List Char) :
    ∀ (l : List Char),
      expand g (expand f l) = expand (fun a => expand g (f a)) l := by
  intro l
  induction l with
  | nil => rfl
  | cons a t ih => simp [expand, expand_append, ih]

theorem expand_congr (f g : Char → List Char) :
    ∀ (l : List Char), (∀ a ∈ l, f a = g a) → expand f l = expand g l := by
  intro l
  induction l with
  | nil => intro _; rfl
  | cons a t ih =>
    intro h
    simp only [expand, h a (by simp), ih (fun x hx => h x (by simp [hx]))]

theorem expand_id : ∀ (l : List Char), expand (fun a => [a]) l = l := by
  intro l
  induction l with
  | nil => rfl
  | cons a t ih => simp [expand, ih]

theorem subChar_of_not_mem {c : Char} {l : List Char} (h : c ∉ l) :
    subChar c l = l := by
  unfold subChar
  rw [expand_congr _ (fun a => [a]) l ?_, expand_id]
  intro a ha
  rw [if_neg]
  intro heq
  exact h (heq ▸ ha)

set_option maxRecDepth 8000 in
/-- For code points in `[16, 256)` — every printable ASCII non-word
character — Python's minimal-digit hex is exactly two digits. -/
theorem pyHexUpper_two_digit :
    ∀ n : Nat, n < 256 → 16 ≤ n →
      pyHexUpper n = [hexDigitU (n / 16), hexDigitU (n % 16)] := by
  decide

theorem hexDigitU_word :
    ∀ m : Nat, m < 16 → isWordChar (hexDigitU m) = true := by
  decide

/-- One step: the chars introduced by earlier substitutions (the `%` and the
hex digits of an escape) are never themselves substituted when the pending
character is a non-word character of a `%`-free source string. -/
def escStep (done : List Char) (a : Char) : List Char :=
  if a ∈ done then escapeChar a else [a]

theorem not_mem_escapeChar {c a : Char} (hc : isWordChar c = false)
    (hpct : c ≠ '%') (ha : 16 ≤ a.toNat) (ha' : a.toNat < 256) :
    c ∉ escapeChar a := by
  unfold escapeChar
  rw [pyHexUpper_two_digit a.toNat ha' ha]
  intro hmem
  have h16a : a.toNat / 16 < 16 := by omega
  have h16b : a.toNat % 16 < 16 := by omega
  simp only [List.mem_cons, List.not_mem_nil, or_false] at hmem
  rcases hmem with h | h | h
  · exact hpct h
  · rw [h] at hc
    rw [hexDigitU_word (a.toNat / 16) h16a] at hc
    exact absurd hc (by decide)
  · rw [h] at hc
    rw [hexDigitU_word (a.toNat % 16) h16b] at hc
    exact absurd hc (by decide)

theorem escape_inv :
    ∀ (order s done : List Char),
      (∀ c ∈ order, c ∈ s ∧ isWordChar c = false) →
      (∀ c ∈ order, c ∉ done) →
      order.Nodup →
      (∀ c ∈ done, isWordChar c = false ∧ 16 ≤ c.toNat ∧ c.toNat < 256) →
      (∀ c ∈ s, isWordChar c = false → 16 ≤ c.toNat ∧ c.toNat < 256) →
      '%' ∉ s →
      escapeUrl (expand (escStep done) s) order
        = expand (escStep (done ++ order)) s := by
  intro order
  induction order with
  | nil =>
    intro s done _ _ _ _ _ _
    simp [escapeUrl]
  | cons c rest ih =>
    intro s done horder hnotdone hnd hdone hrange hpct
    have hcs : c ∈ s := (horder c (by simp)).1
    have hcw : isWordChar c = false := (horder c (by simp)).2
    have hcpct : c ≠ '%' := fun h => hpct (h ▸ hcs)
    have hstep : subChar c (expand (escStep done) s)
        = expand (escStep (done ++ [c])) s := by
      unfold subChar
      rw [expand_expand]
      apply expand_congr
      intro a ha
      by_cases hadone : a ∈ done
      · have h1 : escStep done a = escapeChar a := if_pos hadone
        have h2 : escStep (done ++ [c]) a = escapeChar a :=
          if_pos (List.mem_append.mpr (Or.inl hadone))
        rw [h1, h2]
        have hrangea := hdone a hadone
        exact (subChar_of_not_mem
          (not_mem_escapeChar hcw hcpct hrangea.2.1 hrangea.2.2) : _)
      · by_cases hac : a = c
        · subst hac
          have h1 : escStep done a = [a] := if_neg hadone
          have h2 : escStep (done ++ [a]) a = escapeChar a :=
            if_pos (List.mem_append.mpr (Or.inr (by simp)))
          rw [h1, h2]
          simp [expand]
        · have h1 : escStep done a = [a] := if_neg hadone
          have h2 : escStep (done ++ [c]) a = [a] := by
            apply if_neg
            intro hmem
            rcases List.mem_append.mp hmem with h | h
            · exact hadone h
            · exact hac (by simpa using h)
          rw [h1, h2]
          simp [expand, if_neg hac]
    have hfold : escapeUrl (expand (escStep done) s) (c :: rest)
        = escapeUrl (subChar c (expand (escStep done) s)) rest := rfl
    rw [hfold, hstep]
    rw [ih s (done ++ [c]) ?_ ?_ ?_ ?_ hrange hpct]
    · rw [List.append_assoc]
      rfl
    · exact fun x hx => horder x (by simp [hx])
    · intro x hx hmem
      rcases List.mem_append.mp hmem with h | h
      · exact hnotdone x (by simp [hx]) h
      · have : x = c := by simpa using h
        subst this
        exact (List.nodup_cons.mp hnd).1 hx
    · exact (List.nodup_cons.mp hnd).2
    · intro x hx
      rcases List.mem_append.mp hx with h | h
      · exact hdone x h
      · have : x = c := by simpa using h
        subst this
        exact ⟨hcw, (hrange x hcs hcw).1, (hrange x hcs hcw).2⟩

/--
Counterexample to C3 as stated: on the URL `"a%b#c"`, processing the
non-word-character set in the order `#`, `%` (the Python set iteration
order is unspecified, so this order is a possible run) first turns `#` into
`%23` and then the `%`-substitution also rewrites the introduced `%`,
producing `"a%25b%2523c"` instead of the uniform per-character replacement
`"a%25b%23c"` the claim describes.
-/
theorem C3_counterexample :
    (['#', '%'].Nodup
        ∧ (∀ c ∈ ['#', '%'],
            isWordChar c = false ∧ c ∈ "a%b#c".toList)
        ∧ (∀ c ∈ "a%b#c".toList, isWordChar c = false → c ∈ ['#', '%']))
      ∧ escapeUrl "a%b#c".toList ['#', '%'] = "a%25b%2523c".toList
      ∧ escapeUrl "a%b#c".toList ['#', '%'] ≠ specEscape "a%b#c".toList := by
  decide

/--
C3 as amended: provided the URL contains no `%` character and every
non-word character of it has code point in `[16, 256)`, the escaping step
— for every processing order of the distinct non-word characters —
replaces every character that is not alphanumeric or underscore with `%`
followed by the two-digit uppercase hexadecimal of its code point,
uniformly across the whole string, leaving word characters unchanged
(space becomes `%20`, `#` becomes `%23`).  (With a `%` in the URL the
result depends on the unspecified set order and can double-escape; a code
point below 16 yields one hex digit, above 255 more than two.)
-/
theorem C3_escape_amended (s order : List Char)
    (hnd : order.Nodup)
    (h1 : ∀ c ∈ order, c ∈ s ∧ isWordChar c = false)
    (h2 : ∀ c ∈ s, isWordChar c = false → c ∈ order)
    (hr : ∀ c ∈ s, isWordChar c = false → 16 ≤ c.toNat ∧ c.toNat < 256)
    (hp : '%' ∉ s) :
    escapeUrl s order = specEscape s := by
  have h0 : expand (escStep []) s = s := by
    have hpt : ∀ a ∈ s, escStep [] a = [a] := by
      intro a _
      simp [escStep]
    rw [expand_congr _ _ s hpt, expand_id]
  have hmain := escape_inv order s [] h1 (by simp) hnd (by simp) hr hp
  rw [h0] at hmain
  rw [hmain]
  unfold specEscape
  apply expand_congr
  intro a ha
  by_cases hw : isWordChar a = true
  · have hnot : a ∉ order := by
      intro hmem
      have h := (h1 a hmem).2
      rw [hw] at h
      exact absurd h (by decide)
    simp [escStep, hnot, hw]
  · have hwf : isWordChar a = false := by
      cases hx : isWordChar a with
      | true => exact absurd hx hw
      | false => rfl
    have hmem : a ∈ order := h2 a ha hwf
    have hhex := pyHexUpper_two_digit a.toNat (hr a ha hwf).2 (hr a ha hwf).1
    simp [escStep, hmem, hwf, escapeChar, hhex]

/--
Witness for the amended C3 at the claim's own example: a URL containing a
space and a `#` (and no `%`), escaped in the order space-then-`#`.
-/
theorem C3_escape_amended_witness :
    escapeUrl "a b#c".toList [' ', '#'] = specEscape "a b#c".toList
      ∧ escapeUrl "a b#c".toList [' ', '#'] = "a%20b%23c".toList := by
  refine ⟨C3_escape_amended "a b#c".toList [' ', '#']
    (by decide) (by decide) (by decide) (by decide) (by decide), by decide⟩

/-! ## Concrete pages used by the orchestrator claims -/

/-- A product page whose head selectors resolve but which has none of the
three tabs. -/
def pagePlain : Page :=
  { pageTitle := some "P1", productDescription := some "d",
    hasSpecsTab := false, specLabels := [], specValues := [],
    hasPartsTab := false, partsPane := none,
    hasDrawingsTab := false, productImage := none, infoPacket := none,
    cadSection := none }

/-- A product page on which `div.page-title` is missing, so the Head
extractor cannot produce a product id. -/
def pageNoTitle : Page :=
  { pageTitle := none, productDescription := some "d",
    hasSpecsTab := false, specLabels := [], specValues := [],
    hasPartsTab := false, partsPane := none,
    hasDrawingsTab := false, productImage := none, infoPacket := none,
    cadSection := none }

/-- A product page whose BOM table has an unparseable quantity cell. -/
def pageBadBom : Page :=
  { pageTitle := some "B1", productDescription := some "d",
    hasSpecsTab := false, specLabels := [], specValues := [],
    hasPartsTab := true, partsPane := some (.table ["EA"]),
    hasDrawingsTab := false, productImage := none, infoPacket := none,
    cadSection := none }

/-- A product page without a drawings tab but with the image element, the
manual link and a CAD section all present. -/
def pageNoDrawingsRich : Page :=
  { pageTitle := some "X1", productDescription := some "d",
    hasSpecsTab := false, specLabels := [], specValues := [],
    hasPartsTab := false, partsPane := none,
    hasDrawingsTab := false, productImage := some "http://img",
    infoPacket := some "http://man",
    cadSection := some [⟨"cadname", "cadfile", "http://cad"⟩] }

/-! ## Record-threading lemmas -/

theorem get_specs_stage_assets (pg : Page) (rec : JsonSchema) :
    (get_specs_stage pg rec).assets = rec.assets := by
  unfold get_specs_stage
  split <;> rfl

theorem get_bom_ok_assets {pg : Page} {rec r' : JsonSchema}
    (h : get_bom pg rec = .ok r') : r'.assets = rec.assets := by
  unfold get_bom at h
  split at h
  · split at h
    · cases h
    · cases h
    · split at h
      · cases h
        rfl
      · split at h
        · cases h
        · cases h
          rfl
  · cases h
    rfl

/-! ## C6 -/

/--
Counterexample to C6 as stated: on a page whose `div.page-title` element is
missing, the Head extractor leaves `product_id` null, yet `run_scrapping`
neither fails nor skips persistence — it writes the record (with
`product_id = null`) to a metadata file literally named `"None.json"`
(the f-string renders Python `None`).
-/
theorem C6_counterexample :
    (run_scrapping "D" true pageNoTitle .success).written
        = some ("None.json",
            { product_id := none, name := none, description := some "d",
              specs := none, bom := none, assets := none })
      ∧ (run_scrapping "D" true pageNoTitle .success).error = none
      ∧ (run_scrapping "D" true pageNoTitle .success).writeOk = some true := by
  decide

/--
C6 as amended: `product_id` is not checked before persistence.  When the
Head extractor cannot produce an id the product is not hard-failed: provided
no later stage raises (here: no parts tab to parse, no drawings tab whose
asset paths would need the id), the record is persisted anyway, with a null
`product_id`, to a file named by the Python rendering of the id — so
`"None.json"` for a missing id.
-/
theorem C6_persist_despite_null_id (dl : String) (pg : Page)
    (w : WriteOutcome) (h1 : pg.hasPartsTab = false)
    (h2 : pg.hasDrawingsTab = false) :
    (run_scrapping dl true pg w).written
      = some (pyStr pg.pageTitle ++ ".json",
          { product_id := pg.pageTitle, name := none,
            description := pg.productDescription,
            specs := if pg.hasSpecsTab then
                some (get_specs pg.specLabels pg.specValues) else none,
            bom := none, assets := none }) := by
  simp only [run_scrapping, get_head, get_specs_stage, get_bom,
    download_assets, h1, h2]
  by_cases hs : pg.hasSpecsTab = true <;> simp [hs]

/-- Witness for the amended C6: the concrete no-title page is persisted as
`None.json` with a null `product_id`. -/
theorem C6_persist_despite_null_id_witness :
    (run_scrapping "D" true pageNoTitle .success).written
      = some ("None.json",
          { product_id := none, name := none, description := some "d",
            specs := none, bom := none, assets := none }) := by
  have h := C6_persist_despite_null_id "D" pageNoTitle .success rfl rfl
  simpa [pageNoTitle, pyStr] using h

/-! ## C7 -/

/--
Counterexample to C7 as stated: on a page whose BOM quantity cell is
`"EA"`, the BOM stage raises (`astype(float)`), and because `run_scrapping`
has no `try`/`finally`, the `connection.close()` call — the ClosePage step —
never executes even though the page was loaded.
-/
theorem C7_counterexample :
    (run_scrapping "D" true pageBadBom .success).pageLoaded = true
      ∧ (run_scrapping "D" true pageBadBom .success).error
          = some StageError.badQuantity
      ∧ (run_scrapping "D" true pageBadBom .success).pageClosed = false := by
  decide

/--
C7 as amended: ClosePage runs exactly when every stage completes without
raising — an unexpected exception in a stage after LoadPage propagates
immediately and the browser session of that product is never released
(there is no scoped cleanup).
-/
theorem C7_close_only_on_success (dl : String) (probeOk : Bool) (pg : Page)
    (w : WriteOutcome) :
    ((run_scrapping dl probeOk pg w).error.isSome = true →
        (run_scrapping dl probeOk pg w).pageClosed = false)
      ∧ (probeOk = true → (run_scrapping dl probeOk pg w).error = none →
        (run_scrapping dl probeOk pg w).pageClosed = true) := by
  simp only [run_scrapping]
  cases probeOk with
  | false => simp
  | true =>
    simp only [if_true]
    cases hbom : get_bom pg (get_specs_stage pg (get_head pg {})) with
    | error e => simp
    | ok r3 =>
      cases hass : download_assets dl pg r3 with
      | error e => simp [hass]
      | ok pr => obtain ⟨r4, dls⟩ := pr; simp [hass]

/-- Witness for the amended C7: the bad-BOM page dies before ClosePage,
the plain page reaches it. -/
theorem C7_close_only_on_success_witness :
    (run_scrapping "D" true pageBadBom .success).pageClosed = false
      ∧ (run_scrapping "D" true pagePlain .success).pageClosed = true := by
  refine ⟨(C7_close_only_on_success "D" true pageBadBom .success).1
      (by decide),
    (C7_close_only_on_success "D" true pagePlain .success).2 rfl (by decide)⟩

/-! ## C8 -/

/--
C8, evaluated at the failing input (code bug): the claim holds for the
three classified probe failures — shown here at a timeout: `get_response`
returns `False` after logging, the product is skipped entirely (no page
load, no record, no download, no file, no exception) and the next product
is still processed — but it fails on any other probe exception (e.g.
`TooManyRedirects` on a redirect loop): the catch-all clause
`except Exception as error: pass` leaves `error` unbound, so
`logger.error(error)` raises `UnboundLocalError` before logging anything,
the exception propagates through `run_scrapping`, and the loop over the
remaining products — here a perfectly healthy second product — is
aborted, contradicting "the failure is logged" and "does not terminate
the run over the remaining products".
-/
theorem C8_probe_crash_aborts_run :
    (run_product "D" ProbeOutcome.timeout pagePlain WriteOutcome.success
        = .ok { pageLoaded := false, pageClosed := false, downloads := [],
                written := none, writeOk := none, error := none }
      ∧ probe_logged ProbeOutcome.timeout = true
      ∧ runAllFull "D"
          [⟨ProbeOutcome.timeout, pagePlain, WriteOutcome.success⟩,
            ⟨ProbeOutcome.success, pagePlain, WriteOutcome.success⟩]
          = [.ok (run_scrapping "D" false pagePlain WriteOutcome.success),
              .ok (run_scrapping "D" true pagePlain WriteOutcome.success)])
      ∧ (run_product "D" ProbeOutcome.otherException pagePlain
            WriteOutcome.success
          = .error ProbeExc.unboundLocalError
        ∧ probe_logged ProbeOutcome.otherException = false
        ∧ runAllFull "D"
            [⟨ProbeOutcome.otherException, pagePlain, WriteOutcome.success⟩,
              ⟨ProbeOutcome.success, pagePlain, WriteOutcome.success⟩]
            = [.error ProbeExc.unboundLocalError]) := by
  exact ⟨⟨rfl, rfl, rfl⟩, rfl, rfl, rfl⟩

/-! ## C9 -/

/--
C9: `json_write` turns every serialization (`TypeError`) or I/O failure
into the boolean `False` (it is a total function — no exception escapes
it); `run_scrapping` reaches the write only on error-free runs, records the
boolean, and never turns a write failure into an error; and the driver loop
continues past such a product.
-/
theorem C9_persist_failure_is_boolean :
    (∀ w, w ≠ WriteOutcome.success → json_write w = false)
      ∧ (∀ (dl : String) (probeOk : Bool) (pg : Page) (w : WriteOutcome),
          (run_scrapping dl probeOk pg w).writeOk.isSome = true →
          (run_scrapping dl probeOk pg w).error = none
            ∧ (run_scrapping dl probeOk pg w).writeOk = some (json_write w))
      ∧ (∀ (dl : String) (pg : Page) (w : WriteOutcome)
          (rest : List ProductInput),
          (run_scrapping dl true pg w).error = none →
          runAll dl (⟨true, pg, w⟩ :: rest)
            = run_scrapping dl true pg w :: runAll dl rest) := by
  refine ⟨?_, ?_, ?_⟩
  · intro w hw
    cases w with
    | success => exact absurd rfl hw
    | typeError => rfl
    | ioError => rfl
    | otherError => rfl
  · intro dl probeOk pg w hw
    simp only [run_scrapping] at hw ⊢
    cases probeOk with
    | false => simp at hw
    | true =>
      simp only [if_true] at hw ⊢
      cases hbom : get_bom pg (get_specs_stage pg (get_head pg {})) with
      | error e => simp [hbom] at hw
      | ok r3 =>
        cases hass : download_assets dl pg r3 with
        | error e => simp [hbom, hass] at hw
        | ok pr => obtain ⟨r4, dls⟩ := pr; simp [hass]
  · intro dl pg w rest herr
    simp only [runAll]
    rw [herr]
    simp

/-- Witness for C9 at a concrete run whose `json.dump` raises `IOError`:
the write reports `False`, the run records no error, the loop goes on. -/
theorem C9_persist_failure_is_boolean_witness :
    json_write WriteOutcome.ioError = false
      ∧ (run_scrapping "D" true pagePlain WriteOutcome.ioError).error = none
      ∧ (run_scrapping "D" true pagePlain WriteOutcome.ioError).writeOk
          = some false
      ∧ runAll "D" [⟨true, pagePlain, WriteOutcome.ioError⟩]
          = [run_scrapping "D" true pagePlain WriteOutcome.ioError] := by
  refine ⟨C9_persist_failure_is_boolean.1 WriteOutcome.ioError (by decide),
    (C9_persist_failure_is_boolean.2.1 "D" true pagePlain
      WriteOutcome.ioError (by decide)).1, by decide, ?_⟩
  have h := C9_persist_failure_is_boolean.2.2 "D" pagePlain
    WriteOutcome.ioError [] (by decide)
  rw [h]
  rfl

/-! ## C10 -/

/--
C10: when the drawings tab is absent, `download_assets` returns before
locating anything — nothing at all is downloaded for the product, and the
persisted record's `assets` field stays null, even when the product-image
and manual elements (located by selectors independent of that tab) are
present on the page.
-/
theorem C10_absent_drawings_tab_skips_assets (dl : String) (probeOk : Bool)
    (pg : Page) (w : WriteOutcome) (h : pg.hasDrawingsTab = false) :
    (run_scrapping dl probeOk pg w).downloads = []
      ∧ ∀ f rec, (run_scrapping dl probeOk pg w).written = some (f, rec) →
          rec.assets = none := by
  simp only [run_scrapping]
  cases probeOk with
  | false => simp
  | true =>
    simp only [if_true]
    cases hbom : get_bom pg (get_specs_stage pg (get_head pg {})) with
    | error e => simp
    | ok r3 =>
      have hass : download_assets dl pg r3 = .ok (r3, []) := by
        unfold download_assets
        rw [if_neg (by simp [h])]
      refine ⟨by simp [hass], ?_⟩
      intro f rec hw
      simp only [hass, Option.some.injEq, Prod.mk.injEq] at hw
      obtain ⟨hf, hrec⟩ := hw
      subst hrec
      rw [get_bom_ok_assets hbom, get_specs_stage_assets]
      rfl

/-- Witness for C10: the drawings-tab-less page with image, manual and CAD
elements present downloads nothing and persists `assets = null`. -/
theorem C10_absent_drawings_tab_skips_assets_witness :
    (run_scrapping "D" true pageNoDrawingsRich .success).downloads = []
      ∧ (run_scrapping "D" true pageNoDrawingsRich .success).written
          = some ("X1.json",
              { product_id := some "X1", name := none,
                description := some "d", specs := none, bom := none,
                assets := none }) := by
  refine ⟨(C10_absent_drawings_tab_skips_assets "D" true pageNoDrawingsRich
    .success rfl).1, by decide⟩

end Scrap
